import Mathlib

/-!
Verification development for the trino-go-client query-execution and
result-streaming engine.

The statement-parameter serializer is embedded directly from
src/trino/serial.go.  The engine itself (statement state machine, spooling
downloader, segment decoder, type-conversion layer) ships in implementation
files that are not among the sources here; those parts are modelled from the
specification, with the repository's own tests fixing the concrete behaviour
(error message shapes, converter construction outcomes) where they speak.
-/

namespace Trino

/-! ## Serial: SQL string literal production (src/trino/serial.go) -/

namespace Serial

/-- The single-quote character. -/
def squote : Char := Char.ofNat 39

/-- Doubling of every single quote in a string body.  Embeds the call
strings.Replace(x, "'", "''", -1) from serial.go line 149. -/
def escapeQuotes : List Char → List Char
  | [] => []
  | c :: rest =>
    if c = squote then squote :: squote :: escapeQuotes rest
    else c :: escapeQuotes rest

/-- Serial applied to a Go string value (serial.go lines 148-149): the string
is enclosed in single quotes with every inner quote doubled, and the error
result is always nil. -/
def serialString (x : List Char) : Except String (List Char) :=
  Except.ok (squote :: (escapeQuotes x ++ [squote]))

/-- Parser for the body of a SQL single-quoted string literal, after the
opening quote: a doubled quote stands for one quote character, a lone quote
closes the literal and must end the input.  Used to state that the produced
literal is well formed and closed. -/
def parseLitBody : List Char → Option (List Char)
  | [] => none
  | c :: rest =>
    if c = squote then
      match rest with
      | [] => some []
      | d :: rest2 =>
        if d = squote then (parseLitBody rest2).map (fun t => squote :: t)
        else none
    else (parseLitBody rest).map (fun t => c :: t)

/-- Parser of a complete SQL single-quoted string literal: an opening quote,
then a body per parseLitBody that consumes the entire input. -/
def parseSqlStringLit : List Char → Option (List Char)
  | [] => none
  | c :: rest => if c = squote then parseLitBody rest else none

end Serial

/-! ## Spooling downloader (modelled from the spec, sections 4.3 and 5) -/

namespace Spooling

/-- Modelled from the spec: the spooling configuration carried by the
downloader, spooling_worker_count and max_out_of_order_segments (README
configuration options; the downloader implementation file is not among the
sources). -/
structure Config where
  workerCount : Nat
  maxOutOfOrder : Nat

/-- Modelled from the spec: the lifecycle of one segment inside a downloader
run.  A download slot is held from the moment a worker starts the segment
until its rows have been handed to the consumer. -/
inductive SegStatus where
  | pending
  | downloading
  | buffered
  | delivered
deriving DecidableEq

/-- Occurrences of one status value in a status list. -/
def countQ (q : SegStatus) : List SegStatus → Nat
  | [] => 0
  | c :: rest => (if c = q then 1 else 0) + countQ q rest

/-- Download slots in use: segments being downloaded plus segments downloaded
but not yet delivered. -/
def slotsUsed (st : List SegStatus) : Nat :=
  countQ SegStatus.downloading st + countQ SegStatus.buffered st

/-- Modelled from the spec: the observable state of one downloader run over
the ordered segment list of a page.  output is the row stream handed to the
consumer so far; next is the index of the next segment due for delivery. -/
structure DlState (α : Type) where
  segments : List (List α)
  status : List SegStatus
  next : Nat
  output : List α

/-- Initial downloader state for a page: no segment started, nothing
delivered. -/
def initState {α : Type} (segs : List (List α)) : DlState α :=
  { segments := segs
    status := List.replicate segs.length SegStatus.pending
    next := 0
    output := [] }

/-- Modelled from the spec: one scheduler step of the downloader.  A worker
may start any pending segment when a worker and a slot are free (slots gate
downloaded-but-undelivered segments, so a slot is taken at download start);
a started download may complete at any time, in any order across segments;
the single delivery path hands over exactly the segment at index next once it
is buffered, releasing its slot. -/
inductive Step {α : Type} (cfg : Config) : DlState α → DlState α → Prop where
  | start (s : DlState α) (i : Nat)
      (hi : s.status[i]? = some SegStatus.pending)
      (hw : countQ SegStatus.downloading s.status < cfg.workerCount)
      (hl : slotsUsed s.status < cfg.maxOutOfOrder) :
      Step cfg s { s with status := s.status.set i SegStatus.downloading }
  | finish (s : DlState α) (i : Nat)
      (hi : s.status[i]? = some SegStatus.downloading) :
      Step cfg s { s with status := s.status.set i SegStatus.buffered }
  | deliver (s : DlState α)
      (hi : s.status[s.next]? = some SegStatus.buffered) :
      Step cfg s
        { s with
          status := s.status.set s.next SegStatus.delivered
          next := s.next + 1
          output := s.output ++ s.segments.getD s.next [] }

/-- Reachability along downloader steps. -/
inductive Reaches {α : Type} (cfg : Config) : DlState α → DlState α → Prop where
  | refl (s : DlState α) : Reaches cfg s s
  | tail (s t u : DlState α) : Reaches cfg s t → Step cfg t u → Reaches cfg s u

/-- Invariant of a downloader run, relative to the page's segment list. -/
structure Inv {α : Type} (cfg : Config) (segs : List (List α)) (s : DlState α) : Prop where
  segs_eq : s.segments = segs
  len_eq : s.status.length = segs.length
  slots : slotsUsed s.status ≤ cfg.maxOutOfOrder
  delivered_iff : ∀ i : Nat, i < s.status.length →
    (s.status[i]? = some SegStatus.delivered ↔ i < s.next)
  next_le : s.next ≤ s.status.length
  output_eq : s.output = (segs.take s.next).flatten

/-- Modelled from the spec: a constructed downloader handle.  Construction
performs no network activity; downloads are issued only by a run over a
successfully constructed handle. -/
structure Downloader (α : Type) where
  cfg : Config
  segments : List (List α)

/-- Modelled from the spec: downloader construction (README configuration
note; the implementation file is not among the sources).  A worker count
greater than the out-of-order limit is rejected with a configuration error;
the second component is the log of network requests issued during
construction, which is always empty because construction is pure
configuration validation. -/
def newDownloader {α : Type} (cfg : Config) (segs : List (List α)) :
    Except String (Downloader α) × List Nat :=
  (if cfg.workerCount > cfg.maxOutOfOrder then
    Except.error "trino: spooling_worker_count must not be greater than max_out_of_order_segments"
  else Except.ok { cfg := cfg, segments := segs }, [])

/-- Network requests of a whole spooling session: none when construction
fails, one download per segment index once a handle exists and is run. -/
def sessionRequests {α : Type} (cfg : Config) (segs : List (List α)) : List Nat :=
  match (newDownloader cfg segs).1 with
  | Except.error _ => []
  | Except.ok d => List.range d.segments.length

/-- A concrete two-segment page used to exercise the downloader model. -/
def wSegs : List (List Nat) := [[10, 11], [20]]

/-- A concrete configuration with two workers and two slots. -/
def wCfg : Config := { workerCount := 2, maxOutOfOrder := 2 }

/-- Run over wSegs in which segment 1 finishes downloading before segment 0:
both downloads started. -/
def wState2 : DlState Nat :=
  { segments := wSegs
    status := [SegStatus.downloading, SegStatus.downloading]
    next := 0
    output := [] }

/-- Segment 0 still downloading while segment 1 is already buffered out of
order. -/
def wState3 : DlState Nat :=
  { segments := wSegs
    status := [SegStatus.downloading, SegStatus.buffered]
    next := 0
    output := [] }

/-- Both segments downloaded, none delivered yet. -/
def wState4 : DlState Nat :=
  { segments := wSegs
    status := [SegStatus.buffered, SegStatus.buffered]
    next := 0
    output := [] }

/-- Segment 0 delivered first despite finishing last. -/
def wState5 : DlState Nat :=
  { segments := wSegs
    status := [SegStatus.delivered, SegStatus.buffered]
    next := 1
    output := [10, 11] }

/-- Terminal state of the out-of-order run: everything delivered in original
order. -/
def wState6 : DlState Nat :=
  { segments := wSegs
    status := [SegStatus.delivered, SegStatus.delivered]
    next := 2
    output := [10, 11, 20] }

end Spooling

/-! ## Segment decoder (modelled from the spec, section 4.2) -/

namespace Segment

/-- Result-set payload encodings negotiated with the server. -/
inductive Encoding where
  | json
  | jsonLz4
  | jsonZstd
deriving DecidableEq

/-- Whether the encoding carries a compression codec. -/
def Encoding.compressed : Encoding → Bool
  | Encoding.json => false
  | Encoding.jsonLz4 => true
  | Encoding.jsonZstd => true

/-- Segment metadata as carried on the wire: declared payload size, declared
uncompressed size when a codec is in use, and the segment's row offset. -/
structure SegMeta where
  segmentSize : Nat
  uncompressedSize : Option Nat
  rowOffset : Nat

/-- Size-mismatch decode error text, shaped as in the repository's test
expectations (for example, segment size mismatch: expected 1 bytes, got 29
bytes). -/
def sizeMismatchMsg (kind : String) (expected actual : Nat) : String :=
  kind ++ " size mismatch: expected " ++ toString expected ++ " bytes, got "
    ++ toString actual ++ " bytes"

/-- Modelled from the spec: decoding of one segment's payload bytes (the
decoder implementation file is not among the sources).  The raw payload
length is checked against the declared segment size; for a compressed
encoding the payload is decompressed (the codec itself is an external
collaborator, abstracted as a function) and the decompressed length is
checked against the declared uncompressed size; only then are rows parsed.
Any mismatch yields an error naming both byte counts, and no rows. -/
def decodeSegment {α : Type} (enc : Encoding)
    (decompress : List UInt8 → List UInt8)
    (parseRows : List UInt8 → Option (List α))
    (meta : SegMeta) (payload : List UInt8) : Except String (List α) :=
  if payload.length ≠ meta.segmentSize then
    Except.error (sizeMismatchMsg "segment" meta.segmentSize payload.length)
  else if enc.compressed then
    match meta.uncompressedSize with
    | none => Except.error "trino: missing uncompressedSize for compressed segment"
    | some expected =>
      if (decompress payload).length ≠ expected then
        Except.error (sizeMismatchMsg "decompressed" expected (decompress payload).length)
      else
        match parseRows (decompress payload) with
        | some rows => Except.ok rows
        | none => Except.error "trino: malformed segment payload"
  else
    match parseRows payload with
    | some rows => Except.ok rows
    | none => Except.error "trino: malformed segment payload"

end Segment

/-! ## Statement submission retry policy (modelled from the spec, section 4.4) -/

namespace Retry

/-- One HTTP request as the retry loop sees it: a method and a body.  Retried
attempts must reuse both unchanged. -/
structure Request where
  method : String
  body : String
deriving DecidableEq

/-- A successfully parsed response body: either a structured query-error
payload or a data page. -/
structure Body where
  queryErr : Option String
  rows : List Int
deriving DecidableEq

/-- What one attempt of the statement request can come back with. -/
inductive Response where
  | transportError
  | httpFail (code : Nat)
  | ok (body : Body)
deriving DecidableEq

/-- Terminal outcome of the submission loop. -/
inductive SubmitResult where
  | ok (rows : List Int)
  | queryFailed (e : String)
  | httpFailed (text : String)
  | exhausted
deriving DecidableEq

/-- HTTP status text attached to non-retried failures. -/
def statusText : Nat → String
  | 404 => "404 Not Found"
  | 500 => "500 Internal Server Error"
  | 501 => "501 Not Implemented"
  | 502 => "502 Bad Gateway"
  | 503 => "503 Service Unavailable"
  | 504 => "504 Gateway Timeout"
  | c => toString c

/-- Retry eligibility: transport-level failures and HTTP 502, 503 and 504. -/
def retryableCode (c : Nat) : Prop := c = 502 ∨ c = 503 ∨ c = 504

instance (c : Nat) : Decidable (retryableCode c) := by
  unfold retryableCode
  infer_instance

/-- Modelled from the spec: the submission retry loop (the implementation
file is not among the sources).  The script lists what the server returns to
successive attempts.  A transport failure or a retryable status consumes the
next scripted response with the same request; any other failing status
surfaces at once carrying the HTTP status text; a parsed response with a
query-error payload is terminal and never retried.  The second component
logs every request actually sent. -/
def submitLoop (req : Request) : List Response → SubmitResult × List Request
  | [] => (SubmitResult.exhausted, [])
  | r :: rest =>
    match r with
    | Response.transportError =>
      let (res, log) := submitLoop req rest
      (res, req :: log)
    | Response.httpFail c =>
      if retryableCode c then
        let (res, log) := submitLoop req rest
        (res, req :: log)
      else (SubmitResult.httpFailed (statusText c), [req])
    | Response.ok body =>
      match body.queryErr with
      | some e => (SubmitResult.queryFailed e, [req])
      | none => (SubmitResult.ok body.rows, [req])

/-- A concrete statement request used to exercise the retry model. -/
def wReq : Request := { method := "POST", body := "SELECT 1" }

/-- A concrete successful response carrying one row and no query error. -/
def wOk : Response := Response.ok { queryErr := none, rows := [1] }

end Retry

/-! ## Statement state machine and cancellation (modelled from the spec, section 4.4) -/

namespace Stmt

/-- Statement lifecycle phases. -/
inductive Phase where
  | submitting
  | polling
  | completed
  | failed (e : String)
  | cancelled
deriving DecidableEq

/-- Errors the row cursor can surface, with cancellation distinguishable
from a server-reported query failure. -/
inductive ClientErr where
  | queryFailed (e : String)
  | cancellation
deriving DecidableEq

/-- HTTP requests the statement machine can issue. -/
inductive HttpReq where
  | get (uri : String)
  | del (uri : String)
deriving DecidableEq

/-- Modelled from the spec: the client-side statement state.  buffer holds
rows of the current page not yet handed out; pages scripts the remaining
server pages (next-URI presence and rows) reachable by polling. -/
structure StmtState where
  phase : Phase
  nextUri : Option String
  buffer : List Int
  pages : List (Option String × List Int)

/-- Modelled from the spec: reaction to an observed caller cancellation.  In
submitting or polling the machine transitions to cancelled and issues one
best-effort DELETE to the current next-URI; in a terminal phase nothing
happens. -/
def observeCancel (s : StmtState) : StmtState × List HttpReq :=
  match s.phase with
  | Phase.submitting =>
    ({ s with phase := Phase.cancelled },
      match s.nextUri with
      | some u => [HttpReq.del u]
      | none => [])
  | Phase.polling =>
    ({ s with phase := Phase.cancelled },
      match s.nextUri with
      | some u => [HttpReq.del u]
      | none => [])
  | _ => (s, [])

/-- Modelled from the spec: the best-effort DELETE is fire-and-forget; the
state after it is the same whatever the outcome of the request was. -/
def afterCancelDelete (s : StmtState) (outcome : Except String Unit) : StmtState :=
  match outcome with
  | Except.ok _ => s
  | Except.error _ => s

/-- Outcome of one pull on the row cursor: a row with the successor state,
the end of data, or a page refill after which the caller pulls again. -/
inductive PullResult where
  | row (v : Int) (s2 : StmtState)
  | endOfData
  | again (s2 : StmtState)

/-- Modelled from the spec: one pull on the row cursor.  A cancelled
statement yields the cancellation error and issues no request; a failed one
reports the server failure; polling delivers buffered rows, refills from the
next page via a GET to the next-URI, and completes when no next-URI
remains. -/
def nextRow (s : StmtState) : Except ClientErr PullResult × List HttpReq :=
  match s.phase with
  | Phase.cancelled => (Except.error ClientErr.cancellation, [])
  | Phase.failed e => (Except.error (ClientErr.queryFailed e), [])
  | Phase.completed => (Except.ok PullResult.endOfData, [])
  | Phase.submitting => (Except.ok PullResult.endOfData, [])
  | Phase.polling =>
    match s.buffer with
    | v :: rest => (Except.ok (PullResult.row v { s with buffer := rest }), [])
    | [] =>
      match s.nextUri with
      | none => (Except.ok PullResult.endOfData, [])
      | some u =>
        match s.pages with
        | [] => (Except.ok PullResult.endOfData, [HttpReq.get u])
        | (nu, rows) :: ps =>
          (Except.ok (PullResult.again { s with nextUri := nu, buffer := rows, pages := ps }),
            [HttpReq.get u])

/-- Rows delivered and requests issued over at most n further pulls on the
cursor. -/
def drive : Nat → StmtState → List Int × List HttpReq
  | 0, _ => ([], [])
  | n + 1, s =>
    match nextRow s with
    | (Except.error _, reqs) => ([], reqs)
    | (Except.ok PullResult.endOfData, reqs) => ([], reqs)
    | (Except.ok (PullResult.again s2), reqs) =>
      let (rs, qs) := drive n s2
      (rs, reqs ++ qs)
    | (Except.ok (PullResult.row v s2), reqs) =>
      let (rs, qs) := drive n s2
      (v :: rs, reqs ++ qs)

/-- A concrete mid-poll statement state used to exercise the cancellation
model: polling with a next-URI and one undelivered buffered row. -/
def wStmt : StmtState :=
  { phase := Phase.polling
    nextUri := some "http://coordinator/v1/statement/q/1"
    buffer := [5]
    pages := [] }

end Stmt

/-! ## Type conversion layer (modelled from the spec, section 4.1) -/

namespace TypeConv

/-- A decoded JSON-ish wire value as handed to a converter; other stands for
a Go value outside the JSON shapes (the tests feed an empty struct as bogus
input). -/
inductive WireValue where
  | null
  | boolV (b : Bool)
  | num (s : String)
  | str (s : String)
  | arr (xs : List WireValue)
  | obj (entries : List (String × WireValue))
  | other

/-- A column type signature: the raw type name with its nested type
arguments (literal length and precision arguments are irrelevant to the
claims and omitted). -/
inductive TypeSig where
  | mk (rawType : String) (args : List TypeSig)

/-- The raw type name of a signature. -/
def TypeSig.rawType : TypeSig → String
  | TypeSig.mk r _ => r

/-- Modelled from the spec: the closed converter variant set of design note
section 9, with unknown type names carried by a pass-through converter as the
repository's tests require (converter construction is asserted to succeed
for Geometry and SphericalGeography and the sample value is returned
unchanged). -/
inductive Conv where
  | boolean
  | varchar
  | integerC
  | floatC
  | decimalC
  | varbinary
  | jsonC
  | dateC
  | timeC
  | timeTzC
  | timestampC
  | timestampTzC
  | arrayC (elem : Conv)
  | mapC
  | rowC
  | passthrough
deriving DecidableEq

/-- Raw type names of the supported wire type families (spec sections 4.1
and 9). -/
def supportedRawTypes : List String :=
  ["boolean", "varchar", "char", "tinyint", "smallint", "integer", "bigint",
   "real", "double", "decimal", "varbinary", "json", "date", "time",
   "time with time zone", "timestamp", "timestamp with time zone",
   "array", "map", "row"]

/-- Nesting depth of array signatures from the root. -/
def arrayDepth : TypeSig → Nat
  | TypeSig.mk r [] => if r = "array" then 1 else 0
  | TypeSig.mk r (a :: _) => if r = "array" then 1 + arrayDepth a else 0

/-- Modelled from the spec: converter construction from a column type
signature (the implementation file is not among the sources; the
repository's tests fix the outcome for unknown names).  Supported scalar and
temporal families map to their converter; array recurses into its element
type and rejects nesting deeper than three levels at construction time; a
raw type name outside the supported families yields the pass-through
converter rather than an error. -/
def newTypeConverter : TypeSig → Except String Conv
  | TypeSig.mk r args =>
    if r = "boolean" then Except.ok Conv.boolean
    else if r = "varchar" ∨ r = "char" then Except.ok Conv.varchar
    else if r = "tinyint" ∨ r = "smallint" ∨ r = "integer" ∨ r = "bigint" then
      Except.ok Conv.integerC
    else if r = "real" ∨ r = "double" then Except.ok Conv.floatC
    else if r = "decimal" then Except.ok Conv.decimalC
    else if r = "varbinary" then Except.ok Conv.varbinary
    else if r = "json" then Except.ok Conv.jsonC
    else if r = "date" then Except.ok Conv.dateC
    else if r = "time" then Except.ok Conv.timeC
    else if r = "time with time zone" then Except.ok Conv.timeTzC
    else if r = "timestamp" then Except.ok Conv.timestampC
    else if r = "timestamp with time zone" then Except.ok Conv.timestampTzC
    else if r = "array" then
      if arrayDepth (TypeSig.mk r args) > 3 then
        Except.error "trino: array nesting deeper than 3 levels is not supported"
      else
        match args with
        | [] => Except.error "trino: array type signature requires an element type"
        | a :: _ => (newTypeConverter a).map Conv.arrayC
    else if r = "map" then Except.ok Conv.mapC
    else if r = "row" then Except.ok Conv.rowC
    else Except.ok Conv.passthrough

/-- Native nullable values produced by the converters; the payload is absent
exactly when the wire value was null.  Float and decimal payloads are kept
as their validated wire text in this model; row members stay loosely typed
as on the wire. -/
inductive Native where
  | boolN (v : Option Bool)
  | strN (v : Option String)
  | intN (v : Option Int)
  | floatN (v : Option String)
  | decimalN (v : Option String)
  | bytesN (v : Option String)
  | jsonN (v : Option WireValue)
  | temporalN (v : Option String)
  | arrN (v : Option (List Native))
  | mapN (v : Option (List (String × Native)))
  | rowN (v : Option (List WireValue))
  | passN (v : Option WireValue)

/-- Whether a native value is the null value of its shape. -/
def Native.isNull : Native → Bool
  | Native.boolN v => v.isNone
  | Native.strN v => v.isNone
  | Native.intN v => v.isNone
  | Native.floatN v => v.isNone
  | Native.decimalN v => v.isNone
  | Native.bytesN v => v.isNone
  | Native.jsonN v => v.isNone
  | Native.temporalN v => v.isNone
  | Native.arrN v => v.isNone
  | Native.mapN v => v.isNone
  | Native.rowN v => v.isNone
  | Native.passN v => v.isNone

/-- The null native value of a converter's target shape. -/
def nullNative : Conv → Native
  | Conv.boolean => Native.boolN none
  | Conv.varchar => Native.strN none
  | Conv.integerC => Native.intN none
  | Conv.floatC => Native.floatN none
  | Conv.decimalC => Native.decimalN none
  | Conv.varbinary => Native.bytesN none
  | Conv.jsonC => Native.jsonN none
  | Conv.dateC => Native.temporalN none
  | Conv.timeC => Native.temporalN none
  | Conv.timeTzC => Native.temporalN none
  | Conv.timestampC => Native.temporalN none
  | Conv.timestampTzC => Native.temporalN none
  | Conv.arrayC _ => Native.arrN none
  | Conv.mapC => Native.mapN none
  | Conv.rowC => Native.rowN none
  | Conv.passthrough => Native.passN none

/-- Parse of a signed decimal integer string, as the scalar numeric
converters require. -/
def parseIntString (s : String) : Option Int :=
  s.toInt?

/-- Modelled from the spec: value conversion (ConvertValue).  A null wire
value becomes the null native value of the converter's shape for every
converter; otherwise each family accepts its own wire shape and rejects the
rest with a decode error naming the converter; arrays convert every element
recursively with per-element nulls allowed; maps keep keys as strings; rows
stay loosely typed; the pass-through converter hands back any JSON-shaped
value and rejects only values outside the wire shapes. -/
def convertValue : Conv → WireValue → Except String Native
  | c, WireValue.null => Except.ok (nullNative c)
  | Conv.boolean, WireValue.boolV b => Except.ok (Native.boolN (some b))
  | Conv.boolean, _ => Except.error "trino: cannot convert value to boolean"
  | Conv.varchar, WireValue.str s => Except.ok (Native.strN (some s))
  | Conv.varchar, _ => Except.error "trino: cannot convert value to varchar"
  | Conv.integerC, WireValue.num s =>
    match parseIntString s with
    | some n => Except.ok (Native.intN (some n))
    | none => Except.error "trino: cannot convert value to integer"
  | Conv.integerC, _ => Except.error "trino: cannot convert value to integer"
  | Conv.floatC, WireValue.num s => Except.ok (Native.floatN (some s))
  | Conv.floatC, _ => Except.error "trino: cannot convert value to float"
  | Conv.decimalC, WireValue.str s => Except.ok (Native.decimalN (some s))
  | Conv.decimalC, WireValue.num s => Except.ok (Native.decimalN (some s))
  | Conv.decimalC, _ => Except.error "trino: cannot convert value to decimal"
  | Conv.varbinary, WireValue.str s => Except.ok (Native.bytesN (some s))
  | Conv.varbinary, _ => Except.error "trino: cannot convert value to varbinary"
  | Conv.jsonC, WireValue.other => Except.error "trino: cannot convert value to json"
  | Conv.jsonC, v => Except.ok (Native.jsonN (some v))
  | Conv.dateC, WireValue.str s => Except.ok (Native.temporalN (some s))
  | Conv.dateC, _ => Except.error "trino: cannot convert value to date"
  | Conv.timeC, WireValue.str s => Except.ok (Native.temporalN (some s))
  | Conv.timeC, _ => Except.error "trino: cannot convert value to time"
  | Conv.timeTzC, WireValue.str s => Except.ok (Native.temporalN (some s))
  | Conv.timeTzC, _ => Except.error "trino: cannot convert value to time with time zone"
  | Conv.timestampC, WireValue.str s => Except.ok (Native.temporalN (some s))
  | Conv.timestampC, _ => Except.error "trino: cannot convert value to timestamp"
  | Conv.timestampTzC, WireValue.str s => Except.ok (Native.temporalN (some s))
  | Conv.timestampTzC, _ => Except.error "trino: cannot convert value to timestamp with time zone"
  | Conv.arrayC e, WireValue.arr xs =>
    match xs.mapM (fun x => convertValue e x) with
    | Except.ok vs => Except.ok (Native.arrN (some vs))
    | Except.error msg => Except.error msg
  | Conv.arrayC _, _ => Except.error "trino: cannot convert value to array"
  | Conv.mapC, WireValue.obj entries =>
    Except.ok (Native.mapN (some (entries.map (fun kv => (kv.1, Native.passN (some kv.2))))))
  | Conv.mapC, _ => Except.error "trino: cannot convert value to map"
  | Conv.rowC, WireValue.arr xs => Except.ok (Native.rowN (some xs))
  | Conv.rowC, _ => Except.error "trino: cannot convert value to row"
  | Conv.passthrough, WireValue.other => Except.error "trino: unsupported value"
  | Conv.passthrough, v => Except.ok (Native.passN (some v))

end TypeConv

/-! ## Temporal value grammar (modelled from the spec, section 4.1) -/

namespace Temporal

/-- The dash and minus character. -/
def dashC : Char := Char.ofNat 45

/-- The colon character. -/
def colonC : Char := Char.ofNat 58

/-- The dot character. -/
def dotC : Char := Char.ofNat 46

/-- The space character. -/
def spaceC : Char := Char.ofNat 32

/-- The plus character. -/
def plusC : Char := Char.ofNat 43

/-- Whether a character is a decimal digit. -/
def isDigitC (c : Char) : Bool := 48 ≤ c.toNat && c.toNat ≤ 57

/-- Numeric value of a digit character. -/
def digitVal (c : Char) : Nat := c.toNat - 48

/-- The character of one digit. -/
def digitC (d : Nat) : Char := Char.ofNat (48 + d)

/-- Parse of exactly w digit characters into a number, left to right, on top
of an accumulator. -/
def pFixed : Nat → Nat → List Char → Option (Nat × List Char)
  | 0, acc, cs => some (acc, cs)
  | _ + 1, _, [] => none
  | w + 1, acc, c :: cs =>
    if isDigitC c then pFixed w (acc * 10 + digitVal c) cs else none

/-- The longest digit run at the head of the input, with the remainder. -/
def takeDigits : List Char → List Char × List Char
  | [] => ([], [])
  | c :: cs =>
    if isDigitC c then
      let (ds, rest) := takeDigits cs
      (c :: ds, rest)
    else ([], c :: cs)

/-- Nanoseconds denoted by a fraction digit run: the first nine digits
scaled to nanosecond precision; digits beyond nine are truncated, not
rounded (spec section 4.1). -/
def fracToNanos (ds : List Char) : Nat :=
  let nine := ds.take 9
  (nine.foldl (fun acc c => acc * 10 + digitVal c) 0) * 10 ^ (9 - nine.length)

/-- Parse of a fractional-second digit run (at least one digit) into
nanoseconds. -/
def pFrac (cs : List Char) : Option (Nat × List Char) :=
  match takeDigits cs with
  | ([], _) => none
  | (d :: ds, rest) => some (fracToNanos (d :: ds), rest)

/-- A time zone suffix: absent (the process-local zone), a named zone
resolved via the zone database, or a fixed hour-minute offset. -/
inductive Zone where
  | localZ
  | namedZ (name : String)
  | offsetZ (neg : Bool) (h : Nat) (m : Nat)
deriving DecidableEq

/-- Drop a single leading space when present: the grammar allows the zone
suffix with or without a separating space. -/
def stripOneSpace : List Char → List Char
  | [] => []
  | c :: cs => if c = spaceC then cs else c :: cs

/-- Parse of the zone suffix, consuming the rest of the input: empty means
the local zone; a leading plus or minus starts a two-digit hour, colon,
two-digit minute offset; anything else is a zone database name. -/
def pZone (cs : List Char) : Option Zone :=
  match cs with
  | [] => some Zone.localZ
  | _ :: _ =>
    match stripOneSpace cs with
    | [] => none
    | c :: cs2 =>
      if c = plusC ∨ c = dashC then
        match pFixed 2 0 cs2 with
        | none => none
        | some (h, r1) =>
          match r1 with
          | [] => none
          | c2 :: r2 =>
            if c2 = colonC then
              match pFixed 2 0 r2 with
              | none => none
              | some (m, r3) =>
                if r3 = [] ∧ h ≤ 14 ∧ m ≤ 59 then
                  some (Zone.offsetZ (if c = dashC then true else false) h m)
                else none
            else none
      else some (Zone.namedZ (String.mk (c :: cs2)))

/-- Calendar date components. -/
structure DateParts where
  year : Nat
  month : Nat
  day : Nat
deriving DecidableEq

/-- Clock time components with nanosecond fraction and zone suffix. -/
structure TimeParts where
  hour : Nat
  minute : Nat
  second : Nat
  nanosecond : Nat
  zone : Zone
deriving DecidableEq

/-- A timestamp: a date and a time separated by one space. -/
structure TimestampParts where
  date : DateParts
  time : TimeParts
deriving DecidableEq

/-- Parse of the date grammar YYYY-MM-DD with the remainder, validating
month and day ranges. -/
def pDateCore (cs : List Char) : Option (DateParts × List Char) :=
  match pFixed 4 0 cs with
  | none => none
  | some (y, r1) =>
    match r1 with
    | [] => none
    | c1 :: r2 =>
      if c1 = dashC then
        match pFixed 2 0 r2 with
        | none => none
        | some (mo, r3) =>
          match r3 with
          | [] => none
          | c2 :: r4 =>
            if c2 = dashC then
              match pFixed 2 0 r4 with
              | none => none
              | some (d, r5) =>
                if 1 ≤ mo ∧ mo ≤ 12 ∧ 1 ≤ d ∧ d ≤ 31 then
                  some ({ year := y, month := mo, day := d }, r5)
                else none
            else none
      else none

/-- Parse of the clock part HH:MM:SS with the remainder. -/
def pHMS (cs : List Char) : Option (Nat × Nat × Nat × List Char) :=
  match pFixed 2 0 cs with
  | none => none
  | some (h, r1) =>
    match r1 with
    | [] => none
    | c1 :: r2 =>
      if c1 = colonC then
        match pFixed 2 0 r2 with
        | none => none
        | some (mi, r3) =>
          match r3 with
          | [] => none
          | c2 :: r4 =>
            if c2 = colonC then
              match pFixed 2 0 r4 with
              | none => none
              | some (s, r5) => some (h, mi, s, r5)
            else none
      else none

/-- Modelled from the spec: the time grammar HH:MM:SS with an optional dot
and fraction of one or more digits and an optional zone suffix, consuming
the whole input (the temporal converter implementation file is not among the
sources). -/
def pTimeAll (cs : List Char) : Option TimeParts :=
  match pHMS cs with
  | none => none
  | some (h, mi, s, r5) =>
    if h ≤ 23 ∧ mi ≤ 59 ∧ s ≤ 59 then
      match r5 with
      | [] => some { hour := h, minute := mi, second := s, nanosecond := 0, zone := Zone.localZ }
      | c3 :: r6 =>
        if c3 = dotC then
          match pFrac r6 with
          | none => none
          | some (ns, r7) =>
            match pZone r7 with
            | none => none
            | some z => some { hour := h, minute := mi, second := s, nanosecond := ns, zone := z }
        else
          match pZone r5 with
          | none => none
          | some z => some { hour := h, minute := mi, second := s, nanosecond := 0, zone := z }
    else none

/-- Modelled from the spec: the timestamp grammar, a date, one space and a
time, consuming the whole input. -/
def pTimestampAll (cs : List Char) : Option TimestampParts :=
  match pDateCore cs with
  | none => none
  | some (d, r) =>
    match r with
    | [] => none
    | c :: r2 =>
      if c = spaceC then
        match pTimeAll r2 with
        | none => none
        | some t => some { date := d, time := t }
      else none

/-- The date converter's text parse: the whole input must be one date. -/
def parseDate (s : String) : Option DateParts :=
  match pDateCore s.data with
  | some (d, []) => some d
  | _ => none

/-- The time converters' text parse. -/
def parseTimeText (s : String) : Option TimeParts :=
  pTimeAll s.data

/-- The timestamp converters' text parse. -/
def parseTimestampText (s : String) : Option TimestampParts :=
  pTimestampAll s.data

/-- Zero-padded left-to-right rendering of a number on w digits. -/
def renderPad : Nat → Nat → List Char
  | 0, _ => []
  | w + 1, n => digitC (n / 10 ^ w) :: renderPad w (n % 10 ^ w)

/-- Canonical rendering of a zone suffix, space separated. -/
def renderZone : Zone → List Char
  | Zone.localZ => []
  | Zone.namedZ s => spaceC :: s.data
  | Zone.offsetZ neg h m =>
    spaceC :: (if neg then dashC else plusC) :: (renderPad 2 h ++ colonC :: renderPad 2 m)

/-- Canonical rendering of a date per the grammar. -/
def renderDate (d : DateParts) : List Char :=
  renderPad 4 d.year ++ dashC :: (renderPad 2 d.month ++ dashC :: renderPad 2 d.day)

/-- Canonical rendering of a time with full nanosecond fraction and zone
suffix per the grammar. -/
def renderTime (t : TimeParts) : List Char :=
  renderPad 2 t.hour ++ colonC ::
    (renderPad 2 t.minute ++ colonC ::
      (renderPad 2 t.second ++ dotC ::
        (renderPad 9 t.nanosecond ++ renderZone t.zone)))

/-- Canonical rendering of a timestamp per the grammar. -/
def renderTimestamp (ts : TimestampParts) : List Char :=
  renderDate ts.date ++ spaceC :: renderTime ts.time

/-- In-range date components: four-digit year, calendar month and day. -/
def dateOK (d : DateParts) : Prop :=
  d.year < 10 ^ 4 ∧ 1 ≤ d.month ∧ d.month ≤ 12 ∧ 1 ≤ d.day ∧ d.day ≤ 31

/-- A nonempty character list whose head is not a sign character, as a zone
database name must be to parse back. -/
def zoneHeadOK : List Char → Prop
  | [] => False
  | c :: _ => ¬(c = plusC ∨ c = dashC)

instance (l : List Char) : Decidable (zoneHeadOK l) :=
  match l with
  | [] => isFalse (fun h => h)
  | c :: _ =>
    if hc : c = plusC ∨ c = dashC then isFalse (fun h => h hc) else isTrue hc

/-- A zone suffix the canonical rendering round-trips through: offsets are
in range, and a zone name is nonempty and does not begin with a sign
character. -/
def zoneOK : Zone → Prop
  | Zone.localZ => True
  | Zone.namedZ s => zoneHeadOK s.data
  | Zone.offsetZ _ h m => h ≤ 14 ∧ m ≤ 59

instance : (z : Zone) → Decidable (zoneOK z)
  | Zone.localZ => isTrue trivial
  | Zone.namedZ s => inferInstanceAs (Decidable (zoneHeadOK s.data))
  | Zone.offsetZ _ h m => inferInstanceAs (Decidable (h ≤ 14 ∧ m ≤ 59))

/-- In-range time components. -/
def timeOK (t : TimeParts) : Prop :=
  t.hour ≤ 23 ∧ t.minute ≤ 59 ∧ t.second ≤ 59 ∧ t.nanosecond < 10 ^ 9 ∧ zoneOK t.zone

instance (d : DateParts) : Decidable (dateOK d) :=
  inferInstanceAs (Decidable
    (d.year < 10 ^ 4 ∧ 1 ≤ d.month ∧ d.month ≤ 12 ∧ 1 ≤ d.day ∧ d.day ≤ 31))

instance (t : TimeParts) : Decidable (timeOK t) :=
  inferInstanceAs (Decidable
    (t.hour ≤ 23 ∧ t.minute ≤ 59 ∧ t.second ≤ 59 ∧ t.nanosecond < 10 ^ 9
      ∧ zoneOK t.zone))

end Temporal

/-! ## Theorems -/

namespace Serial

theorem parseLitBody_escape (s : List Char) :
    parseLitBody (escapeQuotes s ++ [squote]) = some s := by
  induction s with
  | nil => simp [escapeQuotes, parseLitBody]
  | cons c rest ih =>
    by_cases hc : c = squote
    · subst hc
      simp [escapeQuotes, parseLitBody, ih]
    · have h1 : escapeQuotes (c :: rest) = c :: escapeQuotes rest := by
        simp [escapeQuotes, hc]
      rw [h1, List.cons_append, parseLitBody.eq_def]
      dsimp only
      rw [if_neg hc, ih]
      rfl

end Serial

/-- C10: for every Go string s, Serial(s) returns, without error, s enclosed
in single quotes with every inner single quote doubled, and the produced
text parses back as one complete well-formed SQL string literal denoting s,
whatever the content of s. -/
theorem c10_serial_string_literal (s : List Char) :
    Serial.serialString s
        = Except.ok (Serial.squote :: (Serial.escapeQuotes s ++ [Serial.squote]))
      ∧ Serial.parseSqlStringLit (Serial.squote :: (Serial.escapeQuotes s ++ [Serial.squote]))
        = some s := by
  refine ⟨rfl, ?_⟩
  simp [Serial.parseSqlStringLit, Serial.parseLitBody_escape]

/-- C10 witness: the literal produced for a string containing a quote,
namely the two characters quote-a, parses back to itself. -/
theorem c10_serial_string_literal_witness :
    Serial.serialString [Serial.squote, Char.ofNat 97]
        = Except.ok (Serial.squote ::
            (Serial.escapeQuotes [Serial.squote, Char.ofNat 97] ++ [Serial.squote]))
      ∧ Serial.parseSqlStringLit (Serial.squote ::
          (Serial.escapeQuotes [Serial.squote, Char.ofNat 97] ++ [Serial.squote]))
        = some [Serial.squote, Char.ofNat 97] :=
  c10_serial_string_literal [Serial.squote, Char.ofNat 97]

namespace Spooling

theorem lt_length_of_getElem? {α : Type} {l : List α} {i : Nat} {a : α}
    (h : l[i]? = some a) : i < l.length := by
  by_contra hc
  push_neg at hc
  rw [List.getElem?_eq_none hc] at h
  exact Option.noConfusion h

theorem countQ_set (st : List SegStatus) (i : Nat) (p q r : SegStatus)
    (h : st[i]? = some p) :
    countQ r (st.set i q) + (if p = r then 1 else 0)
      = countQ r st + (if q = r then 1 else 0) := by
  induction st generalizing i with
  | nil => simp at h
  | cons a tl ih =>
    cases i with
    | zero =>
      simp only [List.getElem?_cons_zero, Option.some_inj] at h
      subst h
      simp only [List.set, countQ]
      split_ifs <;> omega
    | succ n =>
      simp only [List.getElem?_cons_succ] at h
      have := ih n h
      simp only [List.set, countQ]
      omega

theorem countQ_le_length (q : SegStatus) (st : List SegStatus) :
    countQ q st ≤ st.length := by
  induction st with
  | nil => simp [countQ]
  | cons a tl ih =>
    simp only [countQ, List.length_cons]
    split_ifs <;> omega

theorem countQ_replicate_ne (q p : SegStatus) (n : Nat) (h : p ≠ q) :
    countQ q (List.replicate n p) = 0 := by
  induction n with
  | zero => simp [countQ]
  | succ m ih => simp [List.replicate, countQ, h, ih]

theorem take_succ_flatten {α : Type} (l : List (List α)) (n : Nat) (h : n < l.length) :
    (l.take (n + 1)).flatten = (l.take n).flatten ++ l.getD n [] := by
  rw [List.take_succ, List.flatten_append, List.getElem?_eq_getElem h]
  simp [List.getD, List.getElem?_eq_getElem h]

theorem inv_init {α : Type} (cfg : Config) (segs : List (List α)) :
    Inv cfg segs (initState segs) := by
  refine ⟨rfl, by simp [initState], ?_, ?_, by simp [initState], by simp [initState]⟩
  · simp [initState, slotsUsed, countQ_replicate_ne]
  · intro i hi
    simp only [initState] at hi ⊢
    rw [List.getElem?_replicate]
    rw [List.length_replicate] at hi
    simp [hi]

theorem inv_step {α : Type} {cfg : Config} {segs : List (List α)}
    {s t : DlState α} (hv : Inv cfg segs s) (hs : Step cfg s t) :
    Inv cfg segs t := by
  cases hs with
  | start i hi hw hl =>
    have hilen : i < s.status.length := lt_length_of_getElem? hi
    have hnotdel : ¬ i < s.next := by
      intro hlt
      have := (hv.delivered_iff i hilen).mpr hlt
      rw [hi] at this
      exact SegStatus.noConfusion (Option.some_inj.mp this)
    have hcd := countQ_set s.status i SegStatus.pending SegStatus.downloading
      SegStatus.downloading hi
    have hcb := countQ_set s.status i SegStatus.pending SegStatus.downloading
      SegStatus.buffered hi
    rw [show (if SegStatus.pending = SegStatus.downloading then (1:Nat) else 0) = 0 from rfl,
      show (if SegStatus.downloading = SegStatus.downloading then (1:Nat) else 0) = 1 from rfl] at hcd
    rw [show (if SegStatus.pending = SegStatus.buffered then (1:Nat) else 0) = 0 from rfl,
      show (if SegStatus.downloading = SegStatus.buffered then (1:Nat) else 0) = 0 from rfl] at hcb
    refine ⟨hv.segs_eq, by simpa using hv.len_eq, ?_, ?_, by simpa using hv.next_le,
      hv.output_eq⟩
    · have hslots := hv.slots
      simp only [slotsUsed] at hslots hl ⊢
      omega
    · intro j hj
      simp only [List.length_set] at hj
      by_cases hji : j = i
      · subst hji
        rw [List.getElem?_set_self hilen]
        constructor
        · intro hcon
          exact SegStatus.noConfusion (Option.some_inj.mp hcon)
        · intro hlt
          exact absurd hlt hnotdel
      · rw [List.getElem?_set_ne (fun hrq => hji hrq.symm)]
        exact hv.delivered_iff j hj
  | finish i hi =>
    have hilen : i < s.status.length := lt_length_of_getElem? hi
    have hnotdel : ¬ i < s.next := by
      intro hlt
      have := (hv.delivered_iff i hilen).mpr hlt
      rw [hi] at this
      exact SegStatus.noConfusion (Option.some_inj.mp this)
    have hcd := countQ_set s.status i SegStatus.downloading SegStatus.buffered
      SegStatus.downloading hi
    have hcb := countQ_set s.status i SegStatus.downloading SegStatus.buffered
      SegStatus.buffered hi
    rw [show (if SegStatus.downloading = SegStatus.downloading then (1:Nat) else 0) = 1 from rfl,
      show (if SegStatus.buffered = SegStatus.downloading then (1:Nat) else 0) = 0 from rfl] at hcd
    rw [show (if SegStatus.downloading = SegStatus.buffered then (1:Nat) else 0) = 0 from rfl,
      show (if SegStatus.buffered = SegStatus.buffered then (1:Nat) else 0) = 1 from rfl] at hcb
    refine ⟨hv.segs_eq, by simpa using hv.len_eq, ?_, ?_, by simpa using hv.next_le,
      hv.output_eq⟩
    · have hslots := hv.slots
      simp only [slotsUsed] at hslots ⊢
      omega
    · intro j hj
      simp only [List.length_set] at hj
      by_cases hji : j = i
      · subst hji
        rw [List.getElem?_set_self hilen]
        constructor
        · intro hcon
          exact SegStatus.noConfusion (Option.some_inj.mp hcon)
        · intro hlt
          exact absurd hlt hnotdel
      · rw [List.getElem?_set_ne (fun hrq => hji hrq.symm)]
        exact hv.delivered_iff j hj
  | deliver hi =>
    have hilen : s.next < s.status.length := lt_length_of_getElem? hi
    have hcd := countQ_set s.status s.next SegStatus.buffered SegStatus.delivered
      SegStatus.downloading hi
    have hcb := countQ_set s.status s.next SegStatus.buffered SegStatus.delivered
      SegStatus.buffered hi
    rw [show (if SegStatus.buffered = SegStatus.downloading then (1:Nat) else 0) = 0 from rfl,
      show (if SegStatus.delivered = SegStatus.downloading then (1:Nat) else 0) = 0 from rfl] at hcd
    rw [show (if SegStatus.buffered = SegStatus.buffered then (1:Nat) else 0) = 1 from rfl,
      show (if SegStatus.delivered = SegStatus.buffered then (1:Nat) else 0) = 0 from rfl] at hcb
    refine ⟨hv.segs_eq, by simpa using hv.len_eq, ?_, ?_, ?_, ?_⟩
    · have hslots := hv.slots
      simp only [slotsUsed] at hslots ⊢
      omega
    · intro j hj
      simp only [List.length_set] at hj
      by_cases hji : j = s.next
      · subst hji
        rw [List.getElem?_set_self hilen]
        simp
      · rw [List.getElem?_set_ne (fun hrq => hji hrq.symm)]
        rw [hv.delivered_iff j hj]
        dsimp only
        constructor
        · intro h2
          omega
        · intro h2
          omega
    · dsimp only
      simp only [List.length_set]
      omega
    · have hlen : s.next < segs.length := by
        rw [← hv.len_eq]
        exact hilen
      simp only []
      rw [hv.output_eq, hv.segs_eq, take_succ_flatten segs s.next hlen]

theorem inv_reaches {α : Type} {cfg : Config} {segs : List (List α)}
    {s : DlState α} (h : Reaches cfg (initState segs) s) :
    Inv cfg segs s := by
  induction h with
  | refl => exact inv_init cfg segs
  | tail t u hr hstep ih => exact inv_step ih hstep

theorem wStep01 : Step wCfg (initState wSegs)
    { segments := wSegs
      status := [SegStatus.downloading, SegStatus.pending]
      next := 0
      output := [] } :=
  Step.start (initState wSegs) 0 rfl (by decide) (by decide)

theorem wStep12 : Step wCfg
    { segments := wSegs
      status := [SegStatus.downloading, SegStatus.pending]
      next := 0
      output := [] } wState2 :=
  Step.start _ 1 rfl (by decide) (by decide)

theorem wStep23 : Step wCfg wState2 wState3 :=
  Step.finish wState2 1 rfl

theorem wStep34 : Step wCfg wState3 wState4 :=
  Step.finish wState3 0 rfl

theorem wStep45 : Step wCfg wState4 wState5 :=
  Step.deliver wState4 rfl

theorem wStep56 : Step wCfg wState5 wState6 :=
  Step.deliver wState5 rfl

theorem wReach3 : Reaches wCfg (initState wSegs) wState3 :=
  Reaches.tail _ _ _
    (Reaches.tail _ _ _
      (Reaches.tail _ _ _ (Reaches.refl _) wStep01) wStep12) wStep23

theorem wReach6 : Reaches wCfg (initState wSegs) wState6 :=
  Reaches.tail _ _ _ (Reaches.tail _ _ _ (Reaches.tail _ _ _ wReach3 wStep34) wStep45) wStep56

end Spooling

/-- C1: in the spooling downloader model, whatever interleaving of download
starts, completions (in any order) and deliveries a run takes, once every
segment has been delivered the output handed to the consumer is exactly the
concatenation of the segments' rows in the server-declared segment order,
with intra-segment order preserved. -/
theorem c1_ordered_delivery {α : Type} (cfg : Spooling.Config)
    (segs : List (List α)) (s : Spooling.DlState α)
    (h : Spooling.Reaches cfg (Spooling.initState segs) s)
    (hdone : s.next = segs.length) :
    s.output = segs.flatten := by
  have hv := Spooling.inv_reaches h
  rw [hv.output_eq, hdone, List.take_length]

/-- C1 witness: a two-segment run in which segment 1 finishes downloading
before segment 0 still delivers the rows in segment order. -/
theorem c1_ordered_delivery_witness :
    Spooling.wState6.output = Spooling.wSegs.flatten :=
  c1_ordered_delivery Spooling.wCfg Spooling.wSegs Spooling.wState6
    Spooling.wReach6 rfl

/-- C2: throughout any run of the downloader model, the number of
downloaded-but-undelivered segments never exceeds the configured
out-of-order limit, and the delivered segments always form a prefix of the
segment order, so a slot is released only after all earlier segments have
been delivered. -/
theorem c2_outoforder_bound {α : Type} (cfg : Spooling.Config)
    (segs : List (List α)) (s : Spooling.DlState α)
    (h : Spooling.Reaches cfg (Spooling.initState segs) s) :
    Spooling.countQ Spooling.SegStatus.buffered s.status ≤ cfg.maxOutOfOrder
      ∧ ∀ i j : Nat, j ≤ i →
          s.status[i]? = some Spooling.SegStatus.delivered →
          s.status[j]? = some Spooling.SegStatus.delivered := by
  have hv := Spooling.inv_reaches h
  constructor
  · have hs := hv.slots
    simp only [Spooling.slotsUsed] at hs
    omega
  · intro i j hji hdel
    have hi := Spooling.lt_length_of_getElem? hdel
    have hjlen : j < s.status.length := lt_of_le_of_lt hji hi
    have h1 := (hv.delivered_iff i hi).mp hdel
    exact (hv.delivered_iff j hjlen).mpr (lt_of_le_of_lt hji h1)

/-- C2 witness: in the middle of the out-of-order run, with segment 1
buffered ahead of segment 0, the bound holds at the limit 2. -/
theorem c2_outoforder_bound_witness :
    Spooling.countQ Spooling.SegStatus.buffered Spooling.wState3.status
      ≤ Spooling.wCfg.maxOutOfOrder :=
  (c2_outoforder_bound Spooling.wCfg Spooling.wSegs Spooling.wState3
    Spooling.wReach3).1

/-- C3: in the downloader model, a worker count strictly greater than the
out-of-order limit always makes construction fail with the configuration
error, construction itself issues no network request, and the whole session
issues none either. -/
theorem c3_worker_count_validation {α : Type} (W L : Nat)
    (segs : List (List α)) (h : W > L) :
    (Spooling.newDownloader { workerCount := W, maxOutOfOrder := L } segs).1
        = Except.error
            "trino: spooling_worker_count must not be greater than max_out_of_order_segments"
      ∧ (Spooling.newDownloader { workerCount := W, maxOutOfOrder := L } segs).2 = []
      ∧ Spooling.sessionRequests { workerCount := W, maxOutOfOrder := L } segs = [] := by
  refine ⟨?_, rfl, ?_⟩
  · simp [Spooling.newDownloader, h]
  · simp [Spooling.sessionRequests, Spooling.newDownloader, h]

/-- C3 witness: three workers against two slots is rejected. -/
theorem c3_worker_count_validation_witness :
    (Spooling.newDownloader { workerCount := 3, maxOutOfOrder := 2 }
        ([[1], [2]] : List (List Nat))).1
        = Except.error
            "trino: spooling_worker_count must not be greater than max_out_of_order_segments"
      ∧ (Spooling.newDownloader { workerCount := 3, maxOutOfOrder := 2 }
          ([[1], [2]] : List (List Nat))).2 = []
      ∧ Spooling.sessionRequests { workerCount := 3, maxOutOfOrder := 2 }
          ([[1], [2]] : List (List Nat)) = [] :=
  c3_worker_count_validation 3 2 [[1], [2]] (by decide)

/-- C4: every converter the construction can produce maps a null wire value
to the not-valid (null) native value of its target shape, and never to an
error; this covers the scalar, temporal, array, map, row and pass-through
converters alike. -/
theorem c4_null_conversion (sig : TypeConv.TypeSig) (c : TypeConv.Conv)
    (h : TypeConv.newTypeConverter sig = Except.ok c) :
    TypeConv.convertValue c TypeConv.WireValue.null
        = Except.ok (TypeConv.nullNative c)
      ∧ (TypeConv.nullNative c).isNull = true := by
  refine ⟨?_, ?_⟩
  · cases c <;> rfl
  · cases c <;> rfl

/-- C4 witness: the boolean converter on null yields the null boolean. -/
theorem c4_null_conversion_witness :
    TypeConv.convertValue TypeConv.Conv.boolean TypeConv.WireValue.null
        = Except.ok (TypeConv.nullNative TypeConv.Conv.boolean)
      ∧ (TypeConv.nullNative TypeConv.Conv.boolean).isNull = true :=
  c4_null_conversion (TypeConv.TypeSig.mk "boolean" []) TypeConv.Conv.boolean rfl

/-- C9 counterexample: the raw wire type name Geometry is not a supported
type family, yet converter construction succeeds (with the pass-through
converter) instead of failing, exactly as the repository's type-conversion
test asserts for Geometry and SphericalGeography. -/
theorem c9_unsupported_type_counterexample :
    TypeConv.newTypeConverter (TypeConv.TypeSig.mk "Geometry" [])
      = Except.ok TypeConv.Conv.passthrough := by
  rfl

/-- C9 amended: for every column descriptor whose raw wire type name is not
one of the supported type families, converter construction succeeds and
yields the pass-through converter; no error is raised at construction
time. -/
theorem c9_unknown_type_passthrough (r : String) (args : List TypeConv.TypeSig)
    (h : r ∉ TypeConv.supportedRawTypes) :
    TypeConv.newTypeConverter (TypeConv.TypeSig.mk r args)
      = Except.ok TypeConv.Conv.passthrough := by
  simp only [TypeConv.supportedRawTypes, List.mem_cons, List.not_mem_nil,
    or_false, not_or] at h
  obtain ⟨h1, h2, h3, h4, h5, h6, h7, h8, h9, h10, h11, h12, h13, h14, h15,
    h16, h17, h18, h19, h20⟩ := h
  rw [TypeConv.newTypeConverter.eq_def]
  simp [h1, h2, h3, h4, h5, h6, h7, h8, h9, h10,
    h11, h12, h13, h14, h15, h16, h17, h18, h19, h20]

/-- C9 amended witness: SphericalGeography is outside the supported families
and construction still succeeds with the pass-through converter. -/
theorem c9_unknown_type_passthrough_witness :
    TypeConv.newTypeConverter (TypeConv.TypeSig.mk "SphericalGeography" [])
      = Except.ok TypeConv.Conv.passthrough :=
  c9_unknown_type_passthrough "SphericalGeography" [] (by decide)

namespace Temporal

theorem digit_roundtrip :
    ∀ d : Nat, d < 10 → isDigitC (digitC d) = true ∧ digitVal (digitC d) = d := by
  decide

theorem div_pow_lt (n w : Nat) (h : n < 10 ^ (w + 1)) : n / 10 ^ w < 10 := by
  have hp : 0 < 10 ^ w := pow_pos (by norm_num) w
  rw [Nat.div_lt_iff_lt_mul hp]
  rw [pow_succ] at h
  omega

theorem mod_pow_lt (n w : Nat) : n % 10 ^ w < 10 ^ w :=
  Nat.mod_lt _ (pow_pos (by norm_num) w)

theorem pFixed_render (w acc n : Nat) (rest : List Char) (h : n < 10 ^ w) :
    pFixed w acc (renderPad w n ++ rest) = some (acc * 10 ^ w + n, rest) := by
  induction w generalizing acc n with
  | zero =>
    have hn : n = 0 := by
      have : (10:Nat) ^ 0 = 1 := by norm_num
      omega
    subst hn
    simp [renderPad, pFixed]
  | succ w ih =>
    have hd : n / 10 ^ w < 10 := div_pow_lt n w h
    have hdig := digit_roundtrip (n / 10 ^ w) hd
    simp only [renderPad, List.cons_append, pFixed, hdig.1, if_true, hdig.2,
      List.append_eq]
    rw [ih (acc * 10 + n / 10 ^ w) (n % 10 ^ w) (mod_pow_lt n w)]
    have hsplit := Nat.div_add_mod n (10 ^ w)
    have halg : (acc * 10 + n / 10 ^ w) * 10 ^ w + n % 10 ^ w
        = acc * 10 ^ (w + 1) + n := by
      rw [pow_succ]
      nlinarith [hsplit]
    rw [halg]

theorem renderPad_length (w n : Nat) : (renderPad w n).length = w := by
  induction w generalizing n with
  | zero => rfl
  | succ w ih => simp [renderPad, ih]

theorem renderPad_digits (w n : Nat) (h : n < 10 ^ w) :
    ∀ c ∈ renderPad w n, isDigitC c = true := by
  induction w generalizing n with
  | zero => simp [renderPad]
  | succ w ih =>
    intro c hc
    simp only [renderPad, List.mem_cons] at hc
    rcases hc with hc | hc
    · subst hc
      exact (digit_roundtrip _ (div_pow_lt n w h)).1
    · exact ih (n % 10 ^ w) (mod_pow_lt n w) c hc

theorem foldl_digits (w acc n : Nat) (h : n < 10 ^ w) :
    List.foldl (fun acc c => acc * 10 + digitVal c) acc (renderPad w n)
      = acc * 10 ^ w + n := by
  induction w generalizing acc n with
  | zero =>
    have hn : n = 0 := by
      have : (10:Nat) ^ 0 = 1 := by norm_num
      omega
    subst hn
    simp [renderPad]
  | succ w ih =>
    have hdig := digit_roundtrip (n / 10 ^ w) (div_pow_lt n w h)
    simp only [renderPad, List.foldl_cons, hdig.2]
    rw [ih (acc * 10 + n / 10 ^ w) (n % 10 ^ w) (mod_pow_lt n w)]
    have hsplit := Nat.div_add_mod n (10 ^ w)
    have halg : (acc * 10 + n / 10 ^ w) * 10 ^ w + n % 10 ^ w
        = acc * 10 ^ (w + 1) + n := by
      rw [pow_succ]
      nlinarith [hsplit]
    rw [halg]

theorem fracToNanos_render (ns : Nat) (h : ns < 10 ^ 9) :
    fracToNanos (renderPad 9 ns) = ns := by
  have ht : (renderPad 9 ns).take 9 = renderPad 9 ns := by
    have h0 := List.take_length (renderPad 9 ns)
    rwa [renderPad_length] at h0
  have hdef : fracToNanos (renderPad 9 ns)
      = ((renderPad 9 ns).take 9).foldl (fun acc c => acc * 10 + digitVal c) 0
        * 10 ^ (9 - ((renderPad 9 ns).take 9).length) := rfl
  rw [hdef, ht, renderPad_length, foldl_digits 9 0 ns h]
  norm_num

theorem takeDigits_spec (ds rest : List Char)
    (hds : ∀ c ∈ ds, isDigitC c = true)
    (hrest : rest = [] ∨ ∃ c cs, rest = c :: cs ∧ isDigitC c = false) :
    takeDigits (ds ++ rest) = (ds, rest) := by
  induction ds with
  | nil =>
    simp only [List.nil_append]
    rcases hrest with h | ⟨c, cs, hr, hc⟩
    · subst h
      rfl
    · subst hr
      simp [takeDigits, hc]
  | cons d ds ih =>
    have hd := hds d (List.mem_cons_self d ds)
    have hih := ih (fun c hc => hds c (List.mem_cons_of_mem d hc))
    simp only [List.cons_append, takeDigits, hd, if_true, List.append_eq, hih]

theorem pFrac_render (ns : Nat) (rest : List Char) (h : ns < 10 ^ 9)
    (hrest : rest = [] ∨ ∃ c cs, rest = c :: cs ∧ isDigitC c = false) :
    pFrac (renderPad 9 ns ++ rest) = some (ns, rest) := by
  have hspec := takeDigits_spec (renderPad 9 ns) rest (renderPad_digits 9 ns h) hrest
  have hlen : (renderPad 9 ns).length = 9 := renderPad_length 9 ns
  obtain ⟨d, ds, hrp⟩ : ∃ d ds, renderPad 9 ns = d :: ds := by
    cases hr : renderPad 9 ns with
    | nil =>
      rw [hr] at hlen
      simp at hlen
    | cons d ds => exact ⟨d, ds, rfl⟩
  rw [hrp] at hspec ⊢
  unfold pFrac
  rw [hspec]
  dsimp only
  rw [← hrp, fracToNanos_render ns h]

theorem pZone_render (z : Zone) (hz : zoneOK z) : pZone (renderZone z) = some z := by
  cases z with
  | localZ => rfl
  | namedZ s =>
    have hz2 : zoneHeadOK s.data := hz
    cases hs : s.data with
    | nil =>
      rw [hs] at hz2
      exact hz2.elim
    | cons c cs =>
      have hc : ¬(c = plusC ∨ c = dashC) := by
        rw [hs] at hz2
        exact hz2
      have hstrip : stripOneSpace (spaceC :: (c :: cs)) = c :: cs := by
        simp [stripOneSpace]
      show pZone (spaceC :: s.data) = some (Zone.namedZ s)
      rw [hs]
      rw [pZone.eq_def]
      dsimp only
      rw [hstrip]
      dsimp only
      rw [if_neg hc]
      rw [show String.mk (c :: cs) = s from by rw [← hs]]
  | offsetZ neg h m =>
    obtain ⟨hh, hm⟩ := hz
    have hh100 : h < 10 ^ 2 := by norm_num at hh ⊢; omega
    have hm100 : m < 10 ^ 2 := by norm_num at hm ⊢; omega
    have e1 : pFixed 2 0 (renderPad 2 h ++ colonC :: renderPad 2 m)
        = some (0 * 10 ^ 2 + h, colonC :: renderPad 2 m) :=
      pFixed_render 2 0 h (colonC :: renderPad 2 m) hh100
    have e2 : pFixed 2 0 (renderPad 2 m ++ []) = some (0 * 10 ^ 2 + m, []) :=
      pFixed_render 2 0 m [] hm100
    rw [List.append_nil] at e2
    norm_num at e1 e2
    cases neg with
    | false =>
      have hstrip : stripOneSpace
          (spaceC :: (plusC :: (renderPad 2 h ++ colonC :: renderPad 2 m)))
          = plusC :: (renderPad 2 h ++ colonC :: renderPad 2 m) := by
        simp [stripOneSpace]
      show pZone (spaceC :: (plusC :: (renderPad 2 h ++ colonC :: renderPad 2 m)))
          = some (Zone.offsetZ false h m)
      rw [pZone.eq_def]
      dsimp only
      rw [hstrip]
      dsimp only
      rw [if_pos (Or.inl rfl), e1]
      dsimp only
      rw [if_pos rfl, e2]
      dsimp only
      rw [if_pos ⟨rfl, by omega, by omega⟩]
      have hsign : (if plusC = dashC then true else false) = false := by decide
      rw [hsign]
    | true =>
      have hstrip : stripOneSpace
          (spaceC :: (dashC :: (renderPad 2 h ++ colonC :: renderPad 2 m)))
          = dashC :: (renderPad 2 h ++ colonC :: renderPad 2 m) := by
        simp [stripOneSpace]
      show pZone (spaceC :: (dashC :: (renderPad 2 h ++ colonC :: renderPad 2 m)))
          = some (Zone.offsetZ true h m)
      rw [pZone.eq_def]
      dsimp only
      rw [hstrip]
      dsimp only
      rw [if_pos (Or.inr rfl), e1]
      dsimp only
      rw [if_pos rfl, e2]
      dsimp only
      rw [if_pos ⟨rfl, by omega, by omega⟩]
      have hsign : (if dashC = dashC then true else false) = true := by decide
      rw [hsign]

theorem pDateCore_render (d : DateParts) (rest : List Char) (hd : dateOK d) :
    pDateCore (renderDate d ++ rest) = some (d, rest) := by
  obtain ⟨y, mo, dy⟩ := d
  obtain ⟨hy, hmo1, hmo2, hd1, hd2⟩ := hd
  dsimp only at hy hmo1 hmo2 hd1 hd2
  have hy4 : y < 10 ^ 4 := hy
  have hmo100 : mo < 10 ^ 2 := by norm_num; omega
  have hdy100 : dy < 10 ^ 2 := by norm_num; omega
  have e1 : pFixed 4 0 (renderPad 4 y
        ++ dashC :: (renderPad 2 mo ++ dashC :: (renderPad 2 dy ++ rest)))
      = some (0 * 10 ^ 4 + y,
          dashC :: (renderPad 2 mo ++ dashC :: (renderPad 2 dy ++ rest))) :=
    pFixed_render 4 0 y _ hy4
  have e2 : pFixed 2 0 (renderPad 2 mo ++ dashC :: (renderPad 2 dy ++ rest))
      = some (0 * 10 ^ 2 + mo, dashC :: (renderPad 2 dy ++ rest)) :=
    pFixed_render 2 0 mo _ hmo100
  have e3 : pFixed 2 0 (renderPad 2 dy ++ rest) = some (0 * 10 ^ 2 + dy, rest) :=
    pFixed_render 2 0 dy rest hdy100
  norm_num at e1 e2 e3
  show pDateCore ((renderPad 4 y
      ++ dashC :: (renderPad 2 mo ++ dashC :: renderPad 2 dy)) ++ rest)
      = some ({ year := y, month := mo, day := dy }, rest)
  rw [show (renderPad 4 y ++ dashC :: (renderPad 2 mo ++ dashC :: renderPad 2 dy)) ++ rest
      = renderPad 4 y ++ dashC :: (renderPad 2 mo ++ dashC :: (renderPad 2 dy ++ rest)) from by
    simp [List.append_assoc]]
  rw [pDateCore.eq_def, e1]
  dsimp only
  rw [if_pos rfl, e2]
  dsimp only
  rw [if_pos rfl, e3]
  dsimp only
  rw [if_pos ⟨hmo1, hmo2, hd1, hd2⟩]

theorem pHMS_render (h mi s : Nat) (rest : List Char)
    (hh : h < 10 ^ 2) (hmi : mi < 10 ^ 2) (hs : s < 10 ^ 2) :
    pHMS (renderPad 2 h ++ colonC :: (renderPad 2 mi ++ colonC :: (renderPad 2 s ++ rest)))
      = some (h, mi, s, rest) := by
  have e1 : pFixed 2 0 (renderPad 2 h
        ++ colonC :: (renderPad 2 mi ++ colonC :: (renderPad 2 s ++ rest)))
      = some (0 * 10 ^ 2 + h,
          colonC :: (renderPad 2 mi ++ colonC :: (renderPad 2 s ++ rest))) :=
    pFixed_render 2 0 h _ hh
  have e2 : pFixed 2 0 (renderPad 2 mi ++ colonC :: (renderPad 2 s ++ rest))
      = some (0 * 10 ^ 2 + mi, colonC :: (renderPad 2 s ++ rest)) :=
    pFixed_render 2 0 mi _ hmi
  have e3 : pFixed 2 0 (renderPad 2 s ++ rest) = some (0 * 10 ^ 2 + s, rest) :=
    pFixed_render 2 0 s rest hs
  norm_num at e1 e2 e3
  rw [pHMS.eq_def, e1]
  dsimp only
  rw [if_pos rfl, e2]
  dsimp only
  rw [if_pos rfl, e3]

theorem renderZone_not_digit (z : Zone) :
    renderZone z = [] ∨ ∃ c cs, renderZone z = c :: cs ∧ isDigitC c = false := by
  cases z with
  | localZ => exact Or.inl rfl
  | namedZ s => exact Or.inr ⟨spaceC, s.data, rfl, by decide⟩
  | offsetZ neg h m =>
    exact Or.inr ⟨spaceC, _, rfl, by decide⟩

theorem pTimeAll_render (t : TimeParts) (ht : timeOK t) :
    pTimeAll (renderTime t) = some t := by
  obtain ⟨h, mi, s, ns, z⟩ := t
  obtain ⟨hh, hmi, hs, hns, hz⟩ := ht
  have hh100 : h < 10 ^ 2 := by norm_num at hh ⊢; omega
  have hmi100 : mi < 10 ^ 2 := by norm_num at hmi ⊢; omega
  have hs100 : s < 10 ^ 2 := by norm_num at hs ⊢; omega
  have e1 := pHMS_render h mi s (dotC :: (renderPad 9 ns ++ renderZone z))
    hh100 hmi100 hs100
  have e2 := pFrac_render ns (renderZone z) hns (renderZone_not_digit z)
  have e3 := pZone_render z hz
  show pTimeAll (renderPad 2 h ++ colonC :: (renderPad 2 mi ++ colonC ::
      (renderPad 2 s ++ dotC :: (renderPad 9 ns ++ renderZone z))))
      = some { hour := h, minute := mi, second := s, nanosecond := ns, zone := z }
  rw [pTimeAll.eq_def, e1]
  try dsimp only
  rw [if_pos ⟨hh, hmi, hs⟩]
  try dsimp only
  rw [if_pos rfl, e2]
  try dsimp only
  rw [e3]

theorem pTimestampAll_render (ts : TimestampParts) (hd : dateOK ts.date)
    (ht : timeOK ts.time) :
    pTimestampAll (renderTimestamp ts) = some ts := by
  obtain ⟨d, t⟩ := ts
  have e1 := pDateCore_render d (spaceC :: renderTime t) hd
  have e2 := pTimeAll_render t ht
  show pTimestampAll (renderDate d ++ spaceC :: renderTime t)
      = some { date := d, time := t }
  rw [pTimestampAll.eq_def, e1]
  dsimp only
  rw [if_pos rfl, e2]

end Temporal

/-- C5: the timestamp-with-time-zone text 2017-07-10 01:02:03.123456789
Europe/Paris decodes to year 2017, month 7, day 10, hour 1, minute 2,
second 3, nanosecond 123456789 in the Europe/Paris zone; and in general the
temporal converters parse the fixed grammar: every in-range date rendered as
YYYY-MM-DD, every in-range time rendered as HH:MM:SS.fraction with optional
zone suffix, and every in-range timestamp rendered as date SPACE time parse
back to exactly their components. -/
theorem c5_temporal_grammar :
    Temporal.parseTimestampText "2017-07-10 01:02:03.123456789 Europe/Paris"
        = some { date := { year := 2017, month := 7, day := 10 }
                 time := { hour := 1, minute := 2, second := 3
                           nanosecond := 123456789
                           zone := Temporal.Zone.namedZ "Europe/Paris" } }
      ∧ (∀ d : Temporal.DateParts, Temporal.dateOK d →
          Temporal.parseDate (String.mk (Temporal.renderDate d)) = some d)
      ∧ (∀ t : Temporal.TimeParts, Temporal.timeOK t →
          Temporal.parseTimeText (String.mk (Temporal.renderTime t)) = some t)
      ∧ (∀ ts : Temporal.TimestampParts, Temporal.dateOK ts.date →
          Temporal.timeOK ts.time →
          Temporal.parseTimestampText (String.mk (Temporal.renderTimestamp ts))
            = some ts) := by
  refine ⟨by decide, ?_, ?_, ?_⟩
  · intro d hd
    have e := Temporal.pDateCore_render d [] hd
    rw [List.append_nil] at e
    unfold Temporal.parseDate
    rw [show (String.mk (Temporal.renderDate d)).data = Temporal.renderDate d from rfl]
    rw [e]
  · intro t ht
    have e := Temporal.pTimeAll_render t ht
    unfold Temporal.parseTimeText
    rw [show (String.mk (Temporal.renderTime t)).data = Temporal.renderTime t from rfl]
    exact e
  · intro ts hd ht
    have e := Temporal.pTimestampAll_render ts hd ht
    unfold Temporal.parseTimestampText
    rw [show (String.mk (Temporal.renderTimestamp ts)).data
        = Temporal.renderTimestamp ts from rfl]
    exact e

/-- C5 witness: the grammar round trip instantiated at the Paris example's
components. -/
theorem c5_temporal_grammar_witness :
    Temporal.parseTimestampText
        (String.mk (Temporal.renderTimestamp
          { date := { year := 2017, month := 7, day := 10 }
            time := { hour := 1, minute := 2, second := 3
                      nanosecond := 123456789
                      zone := Temporal.Zone.namedZ "Europe/Paris" } }))
      = some { date := { year := 2017, month := 7, day := 10 }
               time := { hour := 1, minute := 2, second := 3
                         nanosecond := 123456789
                         zone := Temporal.Zone.namedZ "Europe/Paris" } } :=
  c5_temporal_grammar.2.2.2
    { date := { year := 2017, month := 7, day := 10 }
      time := { hour := 1, minute := 2, second := 3
                nanosecond := 123456789
                zone := Temporal.Zone.namedZ "Europe/Paris" } }
    (by decide) (by decide)

/-- C6: decoding a compressed segment whose decompressed byte length differs
from the declared uncompressedSize fails with an error that names both the
expected and the actual byte counts and delivers no rows; and under the same
contract a raw payload whose length differs from the declared segmentSize
(the declared-1-actual-29 example) fails naming both counts as well. -/
theorem c6_size_mismatch (enc : Segment.Encoding) (henc : enc.compressed = true)
    (decompress : List UInt8 → List UInt8)
    (parseRows : List UInt8 → Option (List (List Int)))
    (meta : Segment.SegMeta) (payload : List UInt8) (expected : Nat)
    (hmeta : meta.uncompressedSize = some expected)
    (hseg : payload.length = meta.segmentSize)
    (hmis : (decompress payload).length ≠ expected) :
    (Segment.decodeSegment enc decompress parseRows meta payload
        = Except.error
            (Segment.sizeMismatchMsg "decompressed" expected (decompress payload).length))
      ∧ (∃ p q r : String,
          Segment.sizeMismatchMsg "decompressed" expected (decompress payload).length
            = p ++ toString expected ++ q ++ toString (decompress payload).length ++ r)
      ∧ (∀ rows, Segment.decodeSegment enc decompress parseRows meta payload
          ≠ Except.ok rows)
      ∧ (∀ (meta2 : Segment.SegMeta) (payload2 : List UInt8),
          payload2.length ≠ meta2.segmentSize →
          Segment.decodeSegment enc decompress parseRows meta2 payload2
            = Except.error
                (Segment.sizeMismatchMsg "segment" meta2.segmentSize payload2.length)
            ∧ ∃ p q r : String,
                Segment.sizeMismatchMsg "segment" meta2.segmentSize payload2.length
                  = p ++ toString meta2.segmentSize ++ q ++ toString payload2.length ++ r) := by
  have hdec : Segment.decodeSegment enc decompress parseRows meta payload
      = Except.error
          (Segment.sizeMismatchMsg "decompressed" expected (decompress payload).length) := by
    unfold Segment.decodeSegment
    rw [if_neg (by omega : ¬payload.length ≠ meta.segmentSize)]
    rw [henc]
    rw [if_pos rfl, hmeta]
    dsimp only
    rw [if_pos hmis]
  refine ⟨hdec, ?_, ?_, ?_⟩
  · exact ⟨"decompressed" ++ " size mismatch: expected ", " bytes, got ", " bytes", rfl⟩
  · intro rows hcon
    rw [hdec] at hcon
    exact Except.noConfusion hcon
  · intro meta2 payload2 hlen
    refine ⟨?_, ⟨"segment" ++ " size mismatch: expected ", " bytes, got ", " bytes", rfl⟩⟩
    unfold Segment.decodeSegment
    rw [if_pos hlen]

/-- C6 witness: the test's two instances, declared uncompressed size 2
against 16 decompressed bytes, and declared segment size 1 against 29 raw
bytes. -/
theorem c6_size_mismatch_witness :
    (Segment.decodeSegment Segment.Encoding.jsonZstd
        (fun _ => List.replicate 16 (0 : UInt8)) (fun _ => some ([] : List (List Int)))
        { segmentSize := 29, uncompressedSize := some 2, rowOffset := 0 }
        (List.replicate 29 (0 : UInt8))
        = Except.error (Segment.sizeMismatchMsg "decompressed" 2 16))
      ∧ (Segment.decodeSegment Segment.Encoding.jsonZstd
          (fun _ => List.replicate 16 (0 : UInt8)) (fun _ => some ([] : List (List Int)))
          { segmentSize := 1, uncompressedSize := some 1, rowOffset := 0 }
          (List.replicate 29 (0 : UInt8))
          = Except.error (Segment.sizeMismatchMsg "segment" 1 29)) := by
  have h := c6_size_mismatch Segment.Encoding.jsonZstd rfl
    (fun _ => List.replicate 16 (0 : UInt8)) (fun _ => some ([] : List (List Int)))
    { segmentSize := 29, uncompressedSize := some 2, rowOffset := 0 }
    (List.replicate 29 (0 : UInt8)) 2 rfl (by simp) (by simp)
  refine ⟨by simpa using h.1, ?_⟩
  have h2 := (h.2.2.2
    { segmentSize := 1, uncompressedSize := some 1, rowOffset := 0 }
    (List.replicate 29 (0 : UInt8)) (by simp)).1
  simpa using h2

namespace Retry

theorem submitLoop_transport (req : Request) (script : List Response) :
    submitLoop req (Response.transportError :: script)
      = ((submitLoop req script).1, req :: (submitLoop req script).2) := by
  rcases hsl : submitLoop req script with ⟨res, log⟩
  simp [submitLoop, hsl]

theorem submitLoop_retryable (req : Request) (c : Nat) (hc : retryableCode c)
    (script : List Response) :
    submitLoop req (Response.httpFail c :: script)
      = ((submitLoop req script).1, req :: (submitLoop req script).2) := by
  rcases hsl : submitLoop req script with ⟨res, log⟩
  simp [submitLoop, hc, hsl]

theorem submitLoop_fail (req : Request) (c : Nat) (hc : ¬retryableCode c)
    (script : List Response) :
    submitLoop req (Response.httpFail c :: script)
      = (SubmitResult.httpFailed (statusText c), [req]) := by
  simp [submitLoop, hc]

theorem submitLoop_queryErr (req : Request) (e : String) (rows : List Int)
    (script : List Response) :
    submitLoop req (Response.ok { queryErr := some e, rows := rows } :: script)
      = (SubmitResult.queryFailed e, [req]) := by
  simp [submitLoop]

theorem submitLoop_log (req : Request) (script : List Response) :
    ∀ q ∈ (submitLoop req script).2, q = req := by
  induction script with
  | nil =>
    intro q hq
    simp [submitLoop] at hq
  | cons r rest ih =>
    intro q hq
    cases r with
    | transportError =>
      rw [submitLoop_transport] at hq
      rcases List.mem_cons.mp hq with h | h
      · exact h
      · exact ih q h
    | httpFail c =>
      by_cases hc : retryableCode c
      · rw [submitLoop_retryable req c hc] at hq
        rcases List.mem_cons.mp hq with h | h
        · exact h
        · exact ih q h
      · rw [submitLoop_fail req c hc] at hq
        simpa using hq
    | ok body =>
      rcases hqe : body.queryErr with _ | e
      · have : submitLoop req (Response.ok body :: rest)
            = (SubmitResult.ok body.rows, [req]) := by
          simp [submitLoop, hqe]
        rw [this] at hq
        simpa using hq
      · have : submitLoop req (Response.ok body :: rest)
            = (SubmitResult.queryFailed e, [req]) := by
          simp [submitLoop, hqe]
        rw [this] at hq
        simpa using hq

end Retry

/-- C7: in the retry model, a transport-level failure or an HTTP 502, 503 or
504 is retried and the eventual result equals the result of the remaining
script, every issued attempt carrying the same method and body; any other
failing HTTP status surfaces immediately with the HTTP status text without
consuming further responses; and a parsed response carrying a query-error
payload is terminal and never retried. -/
theorem c7_retry_policy (req : Retry.Request) :
    (∀ script : List Retry.Response,
        (Retry.submitLoop req (Retry.Response.transportError :: script)).1
            = (Retry.submitLoop req script).1
          ∧ (Retry.submitLoop req (Retry.Response.httpFail 503 :: script)).1
            = (Retry.submitLoop req script).1
          ∧ (Retry.submitLoop req (Retry.Response.httpFail 502 :: script)).1
            = (Retry.submitLoop req script).1
          ∧ (Retry.submitLoop req (Retry.Response.httpFail 504 :: script)).1
            = (Retry.submitLoop req script).1
          ∧ ∀ q ∈ (Retry.submitLoop req script).2, q = req)
      ∧ (∀ c : Nat, ¬Retry.retryableCode c → ∀ script : List Retry.Response,
          Retry.submitLoop req (Retry.Response.httpFail c :: script)
            = (Retry.SubmitResult.httpFailed (Retry.statusText c), [req]))
      ∧ (∀ (e : String) (rows : List Int) (script : List Retry.Response),
          Retry.submitLoop req
              (Retry.Response.ok { queryErr := some e, rows := rows } :: script)
            = (Retry.SubmitResult.queryFailed e, [req])) := by
  refine ⟨?_, ?_, ?_⟩
  · intro script
    refine ⟨?_, ?_, ?_, ?_, Retry.submitLoop_log req script⟩
    · rw [Retry.submitLoop_transport]
    · rw [Retry.submitLoop_retryable req 503 (Or.inr (Or.inl rfl))]
    · rw [Retry.submitLoop_retryable req 502 (Or.inl rfl)]
    · rw [Retry.submitLoop_retryable req 504 (Or.inr (Or.inr rfl))]
  · intro c hc script
    exact Retry.submitLoop_fail req c hc script
  · intro e rows script
    exact Retry.submitLoop_queryErr req e rows script

/-- C7 witness: a 503 followed by a success yields the same result as the
immediate success, and a 404 surfaces 404 Not Found at once. -/
theorem c7_retry_policy_witness :
    (Retry.submitLoop Retry.wReq [Retry.Response.httpFail 503, Retry.wOk]).1
        = (Retry.submitLoop Retry.wReq [Retry.wOk]).1
      ∧ Retry.submitLoop Retry.wReq [Retry.Response.httpFail 404]
        = (Retry.SubmitResult.httpFailed "404 Not Found", [Retry.wReq]) :=
  ⟨((c7_retry_policy Retry.wReq).1 [Retry.wOk]).2.1,
    (c7_retry_policy Retry.wReq).2.1 404 (by decide) []⟩

/-- C8: in the statement model, cancellation observed while submitting or
polling moves the statement to the cancelled phase, issues exactly one
best-effort DELETE to the current next-URI (none when no next-URI is held)
whose outcome never affects the resulting state, after which the cursor
yields the cancellation error, delivers no further row and issues no further
request however often it is pulled; and the cancellation error is distinct
from every server-reported query failure. -/
theorem c8_cancellation (s : Stmt.StmtState)
    (h : s.phase = Stmt.Phase.submitting ∨ s.phase = Stmt.Phase.polling) :
    (Stmt.observeCancel s).1.phase = Stmt.Phase.cancelled
      ∧ (Stmt.observeCancel s).2
          = (match s.nextUri with
             | some u => [Stmt.HttpReq.del u]
             | none => [])
      ∧ (∀ outcome1 outcome2 : Except String Unit,
          Stmt.afterCancelDelete (Stmt.observeCancel s).1 outcome1
            = Stmt.afterCancelDelete (Stmt.observeCancel s).1 outcome2)
      ∧ Stmt.nextRow (Stmt.observeCancel s).1
          = (Except.error Stmt.ClientErr.cancellation, [])
      ∧ (∀ n, Stmt.drive n (Stmt.observeCancel s).1 = ([], []))
      ∧ (∀ e, Stmt.ClientErr.cancellation ≠ Stmt.ClientErr.queryFailed e) := by
  have hoc : Stmt.observeCancel s
      = ({ s with phase := Stmt.Phase.cancelled },
          match s.nextUri with
          | some u => [Stmt.HttpReq.del u]
          | none => []) := by
    unfold Stmt.observeCancel
    rcases h with h | h <;> rw [h]
  have hnext : Stmt.nextRow (Stmt.observeCancel s).1
      = (Except.error Stmt.ClientErr.cancellation, []) := by
    rw [hoc]
    rfl
  refine ⟨by rw [hoc], by rw [hoc], ?_, hnext, ?_, ?_⟩
  · intro outcome1 outcome2
    cases outcome1 <;> cases outcome2 <;> rfl
  · intro n
    cases n with
    | zero => rfl
    | succ m =>
      unfold Stmt.drive
      rw [hnext]
  · intro e hcon
    exact Stmt.ClientErr.noConfusion hcon

/-- C8 witness: cancelling the concrete polling state with one buffered row
and a next-URI. -/
theorem c8_cancellation_witness :
    (Stmt.observeCancel Stmt.wStmt).1.phase = Stmt.Phase.cancelled
      ∧ (Stmt.observeCancel Stmt.wStmt).2
          = [Stmt.HttpReq.del "http://coordinator/v1/statement/q/1"]
      ∧ Stmt.nextRow (Stmt.observeCancel Stmt.wStmt).1
          = (Except.error Stmt.ClientErr.cancellation, [])
      ∧ Stmt.drive 3 (Stmt.observeCancel Stmt.wStmt).1 = ([], []) := by
  have h := c8_cancellation Stmt.wStmt (Or.inr rfl)
  exact ⟨h.1, h.2.1, h.2.2.2.1, h.2.2.2.2.1 3⟩

end Trino
